import Mathlib

namespace Litestar

/-- Lexicographic comparison of char lists by code point, as Python compares strings. -/
def lexLe : List Char → List Char → Bool
  | [], _ => true
  | _ :: _, [] => false
  | a :: as, b :: bs =>
    if a.toNat < b.toNat then true
    else if a.toNat = b.toNat then lexLe as bs
    else false

/-- Lexicographic order on strings by code point. -/
def strLe (a b : String) : Bool :=
  lexLe a.data b.data

/-- Insertion of a string into a lexicographically sorted list. -/
def insortStr (s : String) : List String → List String
  | [] => [s]
  | t :: ts => if strLe s t then s :: t :: ts else t :: insortStr s ts

/-- Lexicographic insertion sort over strings, mirroring Python `sorted`. -/
def sortStr : List String → List String
  | [] => []
  | s :: ss => insortStr s (sortStr ss)

/-- Python `sorted(set(l))`: the sorted list of distinct elements. -/
def sortedSet (l : List String) : List String :=
  sortStr l.dedup

/-! ### Python string helpers

Small executable models of the Python string operations used by
`_options_handler`: `str.split(",")`, `str.strip()`, `str.lower()`. -/

/-- Python `s.split(",")` over the character list: split at every comma,
keeping empty segments (`"".split(",") == [""]`). -/
def splitComma : List Char → List (List Char)
  | [] => [[]]
  | c :: cs =>
    if c = ',' then [] :: splitComma cs
    else
      match splitComma cs with
      | g :: gs => (c :: g) :: gs
      | [] => [[c]]

/-- ASCII whitespace recognised by Python `str.strip()`. -/
def isPySpace (c : Char) : Bool :=
  c = ' ' || c = '\t' || c = '\n' || c = '\r' || c = '\x0b' || c = '\x0c'

/-- Python `str.strip()`: drop leading and trailing whitespace. -/
def trimChars (cs : List Char) : List Char :=
  ((cs.dropWhile isPySpace).reverse.dropWhile isPySpace).reverse

/-- Python `s.split(",")` on strings. -/
def pySplitComma (s : String) : List String :=
  (splitComma s.data).map (fun cs => ⟨cs⟩)

/-- Python `s.strip()` on strings. -/
def pyStrip (s : String) : String :=
  ⟨trimChars s.data⟩

/-- Python `s.lower()` on strings (ASCII case folding). -/
def pyLower (s : String) : String :=
  ⟨s.data.map Char.toLower⟩

/-! ### Header dictionaries

Response headers are a Python `dict[str, str]`: an ordered association
list with unique keys; setting an existing key replaces it in place,
setting a fresh key appends. -/

/-- Python `d.get(k)` on an ordered association list. -/
def headerGet : List (String × String) → String → Option String
  | [], _ => none
  | p :: ps, k => if p.1 == k then some p.2 else headerGet ps k

/-- Python `d[k] = v` on an ordered association list: replace the first
binding of `k` in place, or append a fresh binding. -/
def headerSet : List (String × String) → String → String → List (String × String)
  | [], k, v => [(k, v)]
  | p :: ps, k, v => if p.1 == k then (k, v) :: ps else p :: headerSet ps k v

/-! ### Data model for `_options_handler`
(src/litestar/handlers/http_handlers/_options.py) -/

/-- The fields of `litestar.config.cors.CORSConfig` read by `_options_handler`. -/
structure CORSConfig where
  is_allow_all_methods : Bool
  allow_methods : List String
  is_origin_allowed : String → Bool
  preflight_headers : List (String × String)
  is_allow_all_headers : Bool
  allow_headers : List String

/-- The request headers `_options_handler` reads from the scope; `none`
models an absent header. -/
structure RequestHeaders where
  origin : Option String
  accessControlRequestMethod : Option String
  accessControlRequestHeaders : Option String

/-- The observable parts of the `Response` objects `_options_handler` builds:
body content (`none` models Python `None`), status code, and the headers
passed to the constructor. -/
structure Response where
  content : Option String
  status_code : Nat
  headers : List (String × String)
deriving DecidableEq, Repr

/-- Python truthiness of an optional string (`None` and `""` are falsy). -/
def optTruthy : Option String → Bool
  | none => false
  | some s => !(s == "")

/-- Modelled from the spec: `DEFAULT_ALLOWED_CORS_HEADERS` is imported from
`litestar.constants`, which is not part of the studied sources; the spec
describes it only as "a fixed default-allowed set" of headers united into
`Access-Control-Allow-Headers` when the policy allows all headers. -/
def defaultAllowedCorsHeaders : List String :=
  ["Accept", "Accept-Language", "Content-Language", "Content-Type"]

/-- Lines 54-58 of `_options.py`: parse `Access-Control-Request-Headers` as a
comma-separated list, strip whitespace, drop empty tokens. -/
def parseRequestedHeaders (s : String) : List String :=
  ((pySplitComma s).map pyStrip).filter (fun h => !(h == ""))

/-- Lines 49-52 of `_options.py`: record an `"Origin"` failure for a
disallowed origin; for an allowed origin, set `Access-Control-Allow-Origin`
to the request origin unless the headers already grant `"*"`.
Returns (failure list, updated response headers). -/
def applyOriginHeader (cfg : CORSConfig) (origin : String)
    (hs : List (String × String)) : List String × List (String × String) :=
  if !cfg.is_origin_allowed origin then (["Origin"], hs)
  else if !(headerGet hs "Access-Control-Allow-Origin" == some "*") then
    ([], headerSet hs "Access-Control-Allow-Origin" origin)
  else ([], hs)

/-- Lines 39-81 of `_options.py`: the CORS-preflight branch of
`_options_handler`, taken when a CORS config is present and the request
carries a (truthy) `Origin` header. -/
def preflightResponse (cfg : CORSConfig) (origin : String)
    (req : RequestHeaders) : Response :=
  let preFlightMethod := req.accessControlRequestMethod
  let failuresMethod : List String :=
    if !cfg.is_allow_all_methods &&
        (optTruthy preFlightMethod &&
         !(cfg.allow_methods.contains (preFlightMethod.getD ""))) then
      ["method"]
    else []
  let originStep := applyOriginHeader cfg origin cfg.preflight_headers
  let requested := parseRequestedHeaders (req.accessControlRequestHeaders.getD "")
  let failuresHeaders : List String :=
    if !requested.isEmpty && (!cfg.is_allow_all_headers &&
        requested.any (fun h => !(cfg.allow_headers.contains (pyLower h)))) then
      ["headers"]
    else []
  let responseHeaders :=
    if !requested.isEmpty && cfg.is_allow_all_headers then
      headerSet originStep.2 "Access-Control-Allow-Headers"
        (String.intercalate ", " (sortedSet (requested ++ defaultAllowedCorsHeaders)))
    else originStep.2
  let failures := failuresMethod ++ originStep.1 ++ failuresHeaders
  if !failures.isEmpty then
    { content := some ("Disallowed CORS " ++ String.intercalate ", " failures)
      status_code := 400
      headers := [] }
  else
    { content := none, status_code := 204, headers := responseHeaders }

/-- Lines 83-88 of `_options.py`: the non-CORS branch, a `204` with an
`Allow` header listing `{OPTIONS} ∪ allow_methods`, sorted. -/
def allowResponse (allowMethods : List String) : Response :=
  { content := none
    status_code := 204
    headers := [("Allow", String.intercalate ", " (sortedSet ("OPTIONS" :: allowMethods)))] }

/-- `_options_handler` (lines 25-88 of `_options.py`): dispatch on the
presence of a CORS config and a truthy `Origin` request header. -/
def optionsHandler (cors : Option CORSConfig) (allowMethods : List String)
    (req : RequestHeaders) : Response :=
  match cors, req.origin with
  | some cfg, some origin =>
    if !(origin == "") then preflightResponse cfg origin req
    else allowResponse allowMethods
  | _, _ => allowResponse allowMethods

/-! ### Independent characterisation of the preflight failure list -/

/-- Line 42-45 of `_options.py`: a `"method"` failure is recorded iff the
policy does not allow all methods and a truthy requested method is outside
the allowed set. -/
def methodFailure (cfg : CORSConfig) (req : RequestHeaders) : Bool :=
  !cfg.is_allow_all_methods &&
    (optTruthy req.accessControlRequestMethod &&
     !(cfg.allow_methods.contains (req.accessControlRequestMethod.getD "")))

/-- Lines 60-66 of `_options.py`: a `"headers"` failure is recorded iff some
headers were requested, the policy does not allow all headers, and some
requested header (case-insensitively) is outside the allowed set. -/
def headersFailure (cfg : CORSConfig) (req : RequestHeaders) : Bool :=
  let requested := parseRequestedHeaders (req.accessControlRequestHeaders.getD "")
  !requested.isEmpty && (!cfg.is_allow_all_headers &&
    requested.any (fun h => !(cfg.allow_headers.contains (pyLower h))))

/-- The failure reasons of a preflight negotiation, in the fixed recording
order `method`, `Origin`, `headers`, each present exactly when its check
fails. -/
def preflightFailures (cfg : CORSConfig) (origin : String)
    (req : RequestHeaders) : List String :=
  (if methodFailure cfg req then ["method"] else []) ++
  (if !cfg.is_origin_allowed origin then ["Origin"] else []) ++
  (if headersFailure cfg req then ["headers"] else [])

/-- A concrete CORS config used to exercise the model. -/
def sampleConfig : CORSConfig :=
  { is_allow_all_methods := false
    allow_methods := ["GET", "POST"]
    is_origin_allowed := fun o => o == "https://ok.example"
    preflight_headers := [("Access-Control-Allow-Origin", "https://ok.example")]
    is_allow_all_headers := false
    allow_headers := ["accept", "content-type"] }

/-- A CORS config whose precomputed preflight headers grant the wildcard
origin. -/
def wildcardConfig : CORSConfig :=
  { is_allow_all_methods := true
    allow_methods := []
    is_origin_allowed := fun _ => true
    preflight_headers := [("Access-Control-Allow-Origin", "*")]
    is_allow_all_headers := true
    allow_headers := [] }

/-! ## The HTTP dispatch pipeline (src/litestar/routes/http.py)

The pipeline is embedded as pure functions producing an event trace (the
observable side effects, in order) together with an `Except` outcome: a
raised Python exception becomes `Except.error`. Awaitables whose outcome is
decided outside the studied sources (handler functions, hooks, validation)
are carried as explicit `Except` values inside the handler record. -/

/-- Python values relevant to the pipeline, with Python truthiness. -/
inductive Val where
  | vnone
  | vstr (s : String)
  | vint (n : Int)
deriving DecidableEq, Repr

/-- Python truthiness (`None`, `""` and `0` are falsy). -/
def Val.truthy : Val → Bool
  | .vnone => false
  | .vstr s => !(s == "")
  | .vint n => !(n == 0)

/-- The exceptions appearing in `http.py`: litestar's `SerializationException`,
`ClientException` and `ImproperlyConfiguredException`, the plain msgspec
decode error raised by `_decode_msgpack_plain`, and arbitrary exceptions from
user handlers or hooks. -/
inductive Exn where
  | serializationException (msg : String)
  | clientException (msg : String)
  | improperlyConfiguredException (msg : String)
  | decodeError (msg : String)
  | handlerException (msg : String)
deriving DecidableEq, Repr

/-- Observable side effects of one request, in execution order. -/
inductive Event where
  | storeGet (key : String)
  | decodeAttempt
  | resolveParams
  | handlerInvoked
  | cleanupAction (i : Nat)
  | beforeRequestHook
  | toResponseCall
  | responseStart
  | sendMessage (m : Nat)
  | markedCached
  | afterResponseHook
  | fileClosed (name : String)
deriving DecidableEq, Repr

/-- `Except.ok`-ness as a Boolean. -/
def exOk {ε α : Type} : Except ε α → Bool
  | .ok _ => true
  | .error _ => false

/-! ### Association-list operations for Python dicts -/

/-- Python `d.get(k)` / `k in d` on an ordered association list. -/
def alistGet {α : Type} : List (String × α) → String → Option α
  | [], _ => none
  | p :: ps, k => if p.1 == k then some p.2 else alistGet ps k

/-- Python `d[k] = v`: replace the first binding in place, else append. -/
def alistSet {α : Type} : List (String × α) → String → α → List (String × α)
  | [], k, v => [(k, v)]
  | p :: ps, k, v => if p.1 == k then (k, v) :: ps else p :: alistSet ps k v

/-- Python `del d[k]` on a dict (keys are unique): drop the binding of `k`. -/
def alistDel {α : Type} (m : List (String × α)) (k : String) : List (String × α) :=
  m.filter (fun p => !(p.1 == k))

/-! ### The method route table (`HTTPRoute.create_handler_map`) -/

/-- A route handler as seen by `create_handler_map`: an identity and the
HTTP methods it declares. -/
structure HandlerDecl where
  hid : Nat
  http_methods : List String
deriving DecidableEq, Repr

/-- All methods declared by a sequence of handlers, in declaration order. -/
def allMethods (hs : List HandlerDecl) : List String :=
  (hs.map HandlerDecl.http_methods).flatten

/-- The inner loop of `create_handler_map` (lines 82-88 of http.py): insert
one handler under each of its methods, raising
`ImproperlyConfiguredException` on a method already present. -/
def addHandlerMethods (path : String) (hid : Nat) :
    List String → List (String × Nat) → Except Exn (List (String × Nat))
  | [], m => .ok m
  | meth :: rest, m =>
    if (alistGet m meth).isSome then
      .error (.improperlyConfiguredException
        ("Handler already registered for path " ++ path ++ " and http method " ++ meth))
    else addHandlerMethods path hid rest (m ++ [(meth, hid)])

/-- The outer loop of `create_handler_map` over the handler sequence. -/
def createHandlerMapAux (path : String) :
    List HandlerDecl → List (String × Nat) → Except Exn (List (String × Nat))
  | [], m => .ok m
  | hd :: hs, m =>
    match addHandlerMethods path hd.hid hd.http_methods m with
    | .error e => .error e
    | .ok m1 => createHandlerMapAux path hs m1

/-- `HTTPRoute.create_handler_map` (lines 77-89 of http.py): build the
method-to-handler table from scratch. -/
def createHandlerMap (path : String) (hs : List HandlerDecl) :
    Except Exn (List (String × Nat)) :=
  createHandlerMapAux path hs []

/-! ### Kwargs resolution (`HTTPRoute._get_response_data`) -/

instance {ε α : Type} [DecidableEq ε] [DecidableEq α] : DecidableEq (Except ε α) := fun x y =>
  match x, y with
  | .ok a, .ok b =>
    if h : a = b then isTrue (by rw [h]) else isFalse (by simp [h])
  | .error a, .error b =>
    if h : a = b then isTrue (by rw [h]) else isFalse (by simp [h])
  | .ok _, .error _ => isFalse (by simp)
  | .error _, .ok _ => isFalse (by simp)

/-- One entry of the kwargs mapping produced by `to_kwargs`: a plain value,
the lazy `data` awaitable (whose await yields a value, the `Empty` sentinel
modelled as `ok none`, or raises), or the `body` awaitable. -/
inductive KEntry where
  | val (v : Val)
  | awaitData (r : Except Exn (Option Val))
  | awaitBody (r : Except Exn Val)
deriving DecidableEq, Repr

/-- Lines 152-161 of http.py: if `"data"` is present, await it; translate a
`SerializationException` into a `ClientException`; delete the key if the
value is the `Empty` sentinel, else store the awaited value. -/
def processDataKwarg (kwargs : List (String × KEntry)) :
    Except Exn (List (String × KEntry)) :=
  match alistGet kwargs "data" with
  | some (.awaitData r) =>
    match r with
    | .error (.serializationException m) => .error (.clientException m)
    | .error e => .error e
    | .ok none => .ok (alistDel kwargs "data")
    | .ok (some v) => .ok (alistSet kwargs "data" (.val v))
  | _ => .ok kwargs

/-- Lines 163-164 of http.py: if `"body"` is present, await it; errors
propagate unmodified. -/
def processBodyKwarg (kwargs : List (String × KEntry)) :
    Except Exn (List (String × KEntry)) :=
  match alistGet kwargs "body" with
  | some (.awaitBody r) =>
    match r with
    | .error e => .error e
    | .ok v => .ok (alistSet kwargs "body" (.val v))
  | _ => .ok kwargs

/-- The kwargs model of a handler (`_get_kwargs_model_for_route`): whether it
declares kwargs, the raw kwargs from `to_kwargs`, and the dependency batches.
Each batch member acquired by `resolve_dependencies` contributes one cleanup
action, identified by a number. -/
structure ParameterModel where
  has_kwargs : Bool
  kwargs : List (String × KEntry)
  dependency_batches : List Nat
deriving DecidableEq, Repr

/-- Modelled from the spec: `DependencyCleanupGroup` lives in
`litestar._kwargs.cleanup`, which is not among the studied sources. Per the
spec it is "an ordered sequence of cleanup actions accumulated as
dependencies are resolved", whose actions "execute at most once each, and
execute even if handler invocation raised". -/
structure DependencyCleanupGroup where
  actions : List Nat
  closed : Bool
deriving DecidableEq, Repr

/-- Modelled from the spec: the release step of a cleanup group runs the
accumulated actions "in reverse order of acquisition", at most once each —
a group that was already released releases nothing again. -/
def DependencyCleanupGroup.cleanup (g : DependencyCleanupGroup) :
    List Event × DependencyCleanupGroup :=
  if g.closed then ([], g)
  else (g.actions.reverse.map Event.cleanupAction, { g with closed := true })

/-- The per-request behaviour of an `HTTPRouteHandler` as consumed by
`http.py`. Outcomes of awaitables produced outside the studied sources
(guards, hooks, validation, the handler function, `to_response`) are carried
as explicit `Except` values; `to_response` yields the wire messages the
resulting ASGI response would send. The sync/async calling convention of
`fn` (lines 173-183 of http.py) is invisible here: both branches call the
same function. -/
structure RouteHandler where
  cache : Bool
  cache_key_builder : Option (String → String)
  guards : Bool
  authorize : Except Exn Unit
  before_request : Option (Except Exn Val)
  parameter_model : ParameterModel
  has_signature_model : Bool
  parse_result : Except Exn Unit
  fn_result : Except Exn Val
  to_response : Val → Except Exn (List Nat)
  after_response : Option (Except Exn Unit)

/-- The collaborators of the cache gateway: the opaque store (`none` = no
entry, bytes as `List Nat`), the plain msgpack decoder, and the app-level
default cache-key builder over the request path. -/
structure CacheEnv where
  store : String → Option (List Nat)
  decode : List Nat → Except String (List Nat)
  default_key_builder : String → String

/-- The parts of a request the pipeline reads: its path (feeding the cache
key builders). -/
structure Req where
  path : String
deriving DecidableEq, Repr

/-- The observable part of the ASGI response produced by dispatch: whether it
replays a cache entry, and the wire messages it sends. -/
structure Resp where
  fromCache : Bool
  messages : List Nat
deriving DecidableEq, Repr

/-- Lines 173-184 of http.py: invoke the handler function, wrapped by the
cleanup group as a scoped acquisition when one exists: the release step runs
after the call completes, on return and on raise alike. -/
def invokeHandler (h : RouteHandler) (cg : Option DependencyCleanupGroup)
    (t0 : List Event) : List Event × Except Exn (Val × Option DependencyCleanupGroup) :=
  match cg with
  | some g =>
    let released := g.cleanup
    match h.fn_result with
    | .error e => (t0 ++ [Event.handlerInvoked] ++ released.1, .error e)
    | .ok v => (t0 ++ [Event.handlerInvoked] ++ released.1, .ok (v, some released.2))
  | none =>
    match h.fn_result with
    | .error e => (t0 ++ [Event.handlerInvoked], .error e)
    | .ok v => (t0 ++ [Event.handlerInvoked], .ok (v, none))

/-- Lines 166-167 of http.py: when the parameter model has dependency
batches, `resolve_dependencies` acquires them and returns a cleanup group
holding one cleanup action per acquired dependency. -/
def acquireCleanupGroup (pm : ParameterModel) : Option DependencyCleanupGroup :=
  if !pm.dependency_batches.isEmpty then
    some { actions := pm.dependency_batches, closed := false }
  else none

/-- `HTTPRoute._get_response_data` (lines 141-185 of http.py): process the
special `data` and `body` kwargs, acquire the cleanup group when dependency
batches exist, validate, and invoke the handler. -/
def getResponseData (h : RouteHandler) :
    List Event × Except Exn (Val × Option DependencyCleanupGroup) :=
  if h.parameter_model.has_kwargs && h.has_signature_model then
    match processDataKwarg h.parameter_model.kwargs with
    | .error e => ([Event.resolveParams], .error e)
    | .ok k1 =>
      match processBodyKwarg k1 with
      | .error e => ([Event.resolveParams], .error e)
      | .ok _ =>
        match h.parse_result with
        | .error e => ([Event.resolveParams], .error e)
        | .ok _ => invokeHandler h (acquireCleanupGroup h.parameter_model) [Event.resolveParams]
  else invokeHandler h none []

/-- Lines 125-129 of http.py: `response_data` starts as `None` and is
replaced by the before-request hook's result when such a hook is declared. -/
def beforeRequestStep (h : RouteHandler) : List Event × Except Exn Val :=
  match h.before_request with
  | some res => ([Event.beforeRequestHook], res)
  | none => ([], .ok Val.vnone)

/-- `HTTPRoute._call_handler_function` (lines 118-139 of http.py): run the
before-request hook; a truthy hook result becomes the response payload and
skips resolution and invocation; convert the payload via `to_response`; then
call the cleanup group's explicit `cleanup()`. -/
def callHandlerFunction (h : RouteHandler) : List Event × Except Exn Resp :=
  match beforeRequestStep h with
  | (t0, .error e) => (t0, .error e)
  | (t0, .ok v0) =>
    if v0.truthy then
      match h.to_response v0 with
      | .error e => (t0 ++ [Event.toResponseCall], .error e)
      | .ok msgs => (t0 ++ [Event.toResponseCall], .ok { fromCache := false, messages := msgs })
    else
      match getResponseData h with
      | (t1, .error e) => (t0 ++ t1, .error e)
      | (t1, .ok (data, cg)) =>
        match h.to_response data with
        | .error e => (t0 ++ t1 ++ [Event.toResponseCall], .error e)
        | .ok msgs =>
          let t2 := match cg with
            | some g => g.cleanup.1
            | none => []
          (t0 ++ t1 ++ [Event.toResponseCall] ++ t2,
           .ok { fromCache := false, messages := msgs })

/-- The cache key as built on line 200 of http.py: the handler's custom
key builder if present, else the app default. -/
def cacheKeyOf (env : CacheEnv) (h : RouteHandler) (req : Req) : String :=
  match h.cache_key_builder with
  | some kb => kb req.path
  | none => env.default_key_builder req.path

/-- `HTTPRoute._get_cached_response` (lines 187-215 of http.py): build the
key, consult the store; a missing or empty blob is a miss; otherwise decode
(a decode failure propagates); a hit yields a response that marks the scope
as served-from-cache and replays the stored messages. -/
def getCachedResponse (env : CacheEnv) (h : RouteHandler) (req : Req) :
    List Event × Except Exn (Option Resp) :=
  match env.store (cacheKeyOf env h req) with
  | none => ([Event.storeGet (cacheKeyOf env h req)], .ok none)
  | some bytes =>
    if bytes.isEmpty then ([Event.storeGet (cacheKeyOf env h req)], .ok none)
    else
      match env.decode bytes with
      | .error m =>
        ([Event.storeGet (cacheKeyOf env h req), Event.decodeAttempt],
         .error (.decodeError m))
      | .ok msgs =>
        ([Event.storeGet (cacheKeyOf env h req), Event.decodeAttempt],
         .ok (some { fromCache := true, messages := msgs }))

/-- `HTTPRoute._get_response_for_request` (lines 91-116 of http.py): consult
the cache only for caching-enabled handlers; serve a hit, fall through to
live invocation on a miss. -/
def getResponseForRequest (env : CacheEnv) (h : RouteHandler) (req : Req) :
    List Event × Except Exn Resp :=
  if h.cache then
    match getCachedResponse env h req with
    | (t, .error e) => (t, .error e)
    | (t, .ok (some r)) => (t, .ok r)
    | (t, .ok none) =>
      let live := callHandlerFunction h
      (t ++ live.1, live.2)
  else callHandlerFunction h

/-- Sending a response over the transport: a cached response first marks the
scope as served-from-cache (lines 210-214 of http.py), then replays its
messages in order; a live response sends its own messages. -/
def sendResponse (r : Resp) : List Event :=
  if r.fromCache then Event.markedCached :: r.messages.map Event.sendMessage
  else Event.responseStart :: r.messages.map Event.sendMessage

/-- One value of the form-data mapping in `scope["_form"]`: its name, whether
it is an `UploadFile`, and whether its underlying file is already closed. -/
structure FormFile where
  fname : String
  isUploadFile : Bool
  wasClosed : Bool
deriving DecidableEq, Repr

/-- `HTTPRoute._cleanup_temporary_files` (lines 217-221 of http.py): close
every form value that is an `UploadFile` and not already closed. -/
def cleanupTemporaryFiles (form : List FormFile) : List Event :=
  (form.filter (fun f => f.isUploadFile && !f.wasClosed)).map
    (fun f => Event.fileClosed f.fname)

/-- Lines 64-65 of http.py: run the authorization chain only when guards are
declared. -/
def authorizeStep (h : RouteHandler) : Except Exn Unit :=
  if h.guards then h.authorize else .ok ()

/-- Lines 71-72 of http.py: await the after-response handler when declared. -/
def afterResponseStep (h : RouteHandler) : List Event × Except Exn Unit :=
  match h.after_response with
  | some res => ([Event.afterResponseHook], res)
  | none => ([], .ok ())

/-- `HTTPRoute.handle` (lines 49-75 of http.py): authorize, dispatch, send
the response, run the after-response hook, then close temporary files if
form data exists. There is no `try`/`finally`: an exception on any earlier
step propagates immediately, skipping the later steps. -/
def handle (env : CacheEnv) (h : RouteHandler) (req : Req)
    (form : List FormFile) : List Event × Except Exn Unit :=
  match authorizeStep h with
  | .error e => ([], .error e)
  | .ok _ =>
    match getResponseForRequest env h req with
    | (t1, .error e) => (t1, .error e)
    | (t1, .ok resp) =>
      match afterResponseStep h with
      | (t3, .error e) => (t1 ++ sendResponse resp ++ t3, .error e)
      | (t3, .ok _) =>
        (t1 ++ sendResponse resp ++ t3 ++
          (if form.isEmpty then [] else cleanupTemporaryFiles form), .ok ())

/-- Recogniser for file-closing events. -/
def isFileClosedEvent : Event → Bool
  | .fileClosed _ => true
  | _ => false

/-- Recogniser for cleanup-action events. -/
def isCleanupEvent : Event → Bool
  | .cleanupAction _ => true
  | _ => false

/-- Recogniser for store-read events. -/
def isStoreGetEvent : Event → Bool
  | .storeGet _ => true
  | _ => false

/-- The events the live invocation path (`_call_handler_function`) can emit:
hooks, resolution, invocation, cleanup and response conversion — never store
reads, cache decodes, sends or file closings. -/
def isRoutineEvent : Event → Bool
  | .beforeRequestHook => true
  | .toResponseCall => true
  | .resolveParams => true
  | .handlerInvoked => true
  | .cleanupAction _ => true
  | _ => false

/-- The complete method table a duplicate-free handler sequence produces:
each handler's methods bound to that handler, in declaration order. -/
def fullTable (hs : List HandlerDecl) : List (String × Nat) :=
  (hs.map (fun hd => hd.http_methods.map (fun meth => (meth, hd.hid)))).flatten

/-- A plain handler for concrete runs: no caching, no guards, no hooks, no
kwargs; the handler function returns `"ok"` and the response sends
message `7`. -/
def baseHandler : RouteHandler :=
  { cache := false
    cache_key_builder := none
    guards := false
    authorize := .ok ()
    before_request := none
    parameter_model := { has_kwargs := false, kwargs := [], dependency_batches := [] }
    has_signature_model := false
    parse_result := .ok ()
    fn_result := .ok (Val.vstr "ok")
    to_response := fun _ => .ok [7]
    after_response := none }

/-- An environment whose store is empty. -/
def emptyStoreEnv : CacheEnv :=
  { store := fun _ => none
    decode := fun _ => .error "unreachable"
    default_key_builder := fun p => p }

/-! ## Theorems -/

theorem alistGet_isSome_iff {α : Type} (m : List (String × α)) (k : String) :
    (alistGet m k).isSome = true ↔ k ∈ m.map Prod.fst := by
  induction m with
  | nil => simp [alistGet]
  | cons p ps ih =>
    by_cases h : p.1 == k
    · have : p.1 = k := by simpa using h
      simp [alistGet, h, this]
    · have : ¬ p.1 = k := by simpa using h
      simp [alistGet, h, ih, this, Ne.symm this]

theorem map_fst_pairs (hid : Nat) (ms : List String) :
    (ms.map (fun meth => (meth, hid))).map Prod.fst = ms := by
  induction ms with
  | nil => rfl
  | cons m t ih => simp only [List.map_cons, ih]

theorem fullTable_keys (hs : List HandlerDecl) :
    (fullTable hs).map Prod.fst = allMethods hs := by
  induction hs with
  | nil => rfl
  | cons hd t ih =>
    simp only [fullTable, allMethods, List.map_cons, List.flatten_cons,
      List.map_append] at *
    rw [ih, map_fst_pairs]

theorem addHandlerMethods_ok (path : String) (hid : Nat) (ms : List String)
    (acc : List (String × Nat)) (h : (acc.map Prod.fst ++ ms).Nodup) :
    addHandlerMethods path hid ms acc =
      .ok (acc ++ ms.map (fun meth => (meth, hid))) := by
  induction ms generalizing acc with
  | nil => simp [addHandlerMethods]
  | cons meth rest ih =>
    have hmem : meth ∉ acc.map Prod.fst := by
      rw [List.nodup_append] at h
      exact fun hc => h.2.2 hc (by simp)
    have hget : (alistGet acc meth).isSome = false := by
      rw [Bool.eq_false_iff]
      intro hc
      exact hmem ((alistGet_isSome_iff acc meth).mp hc)
    have hnext : ((acc ++ [(meth, hid)]).map Prod.fst ++ rest).Nodup := by
      have : (acc ++ [(meth, hid)]).map Prod.fst ++ rest =
          acc.map Prod.fst ++ (meth :: rest) := by simp
      rw [this]
      exact h
    have := ih (acc ++ [(meth, hid)]) hnext
    simp [addHandlerMethods, hget, this]

theorem addHandlerMethods_err (path : String) (hid : Nat) (ms : List String)
    (acc : List (String × Nat)) (hacc : (acc.map Prod.fst).Nodup)
    (h : ¬ (acc.map Prod.fst ++ ms).Nodup) :
    ∃ msg, addHandlerMethods path hid ms acc =
      .error (.improperlyConfiguredException msg) := by
  induction ms generalizing acc with
  | nil => exact absurd (by simpa using hacc) h
  | cons meth rest ih =>
    by_cases hmem : meth ∈ acc.map Prod.fst
    · have hget : (alistGet acc meth).isSome = true :=
        (alistGet_isSome_iff acc meth).mpr hmem
      exact ⟨"Handler already registered for path " ++ path ++ " and http method " ++ meth,
        by simp [addHandlerMethods, hget]⟩
    · have hget : (alistGet acc meth).isSome = false := by
        rw [Bool.eq_false_iff]
        intro hc
        exact hmem ((alistGet_isSome_iff acc meth).mp hc)
      have hacc1 : ((acc ++ [(meth, hid)]).map Prod.fst).Nodup := by
        rw [List.map_append, List.nodup_append]
        refine ⟨hacc, by simp, ?_⟩
        intro a ha hb
        simp at hb
        subst hb
        exact hmem ha
      have hnot1 : ¬ ((acc ++ [(meth, hid)]).map Prod.fst ++ rest).Nodup := by
        intro hc
        apply h
        have : (acc ++ [(meth, hid)]).map Prod.fst ++ rest =
            acc.map Prod.fst ++ (meth :: rest) := by simp
        rw [this] at hc
        exact hc
      obtain ⟨msg, hmsg⟩ := ih (acc ++ [(meth, hid)]) hacc1 hnot1
      exact ⟨msg, by simp [addHandlerMethods, hget, hmsg]⟩

theorem createHandlerMapAux_ok (path : String) (hs : List HandlerDecl)
    (acc : List (String × Nat))
    (h : (acc.map Prod.fst ++ allMethods hs).Nodup) :
    createHandlerMapAux path hs acc = .ok (acc ++ fullTable hs) := by
  induction hs generalizing acc with
  | nil => simp [createHandlerMapAux, fullTable]
  | cons hd t ih =>
    have hsplit : acc.map Prod.fst ++ allMethods (hd :: t) =
        (acc.map Prod.fst ++ hd.http_methods) ++ allMethods t := by
      simp [allMethods]
    rw [hsplit] at h
    have hpre : (acc.map Prod.fst ++ hd.http_methods).Nodup :=
      (List.nodup_append.mp h).1
    have hadd := addHandlerMethods_ok path hd.hid hd.http_methods acc hpre
    have hnext : ((acc ++ hd.http_methods.map (fun meth => (meth, hd.hid))).map
        Prod.fst ++ allMethods t).Nodup := by
      have : (acc ++ hd.http_methods.map (fun meth => (meth, hd.hid))).map Prod.fst =
          acc.map Prod.fst ++ hd.http_methods := by
        rw [List.map_append, map_fst_pairs]
      rw [this]
      exact h
    have := ih (acc ++ hd.http_methods.map (fun meth => (meth, hd.hid))) hnext
    simp only [createHandlerMapAux, hadd, this, fullTable, List.map_cons,
      List.flatten_cons, List.append_assoc]

theorem createHandlerMapAux_err (path : String) (hs : List HandlerDecl)
    (acc : List (String × Nat)) (hacc : (acc.map Prod.fst).Nodup)
    (h : ¬ (acc.map Prod.fst ++ allMethods hs).Nodup) :
    ∃ msg, createHandlerMapAux path hs acc =
      .error (.improperlyConfiguredException msg) := by
  induction hs generalizing acc with
  | nil => exact absurd (by simpa [allMethods] using hacc) h
  | cons hd t ih =>
    have hsplit : acc.map Prod.fst ++ allMethods (hd :: t) =
        (acc.map Prod.fst ++ hd.http_methods) ++ allMethods t := by
      simp [allMethods]
    rw [hsplit] at h
    by_cases hpre : (acc.map Prod.fst ++ hd.http_methods).Nodup
    · have hadd := addHandlerMethods_ok path hd.hid hd.http_methods acc hpre
      have hkeys : (acc ++ hd.http_methods.map (fun meth => (meth, hd.hid))).map
          Prod.fst = acc.map Prod.fst ++ hd.http_methods := by
        rw [List.map_append, map_fst_pairs]
      have hnot1 : ¬ ((acc ++ hd.http_methods.map (fun meth => (meth, hd.hid))).map
          Prod.fst ++ allMethods t).Nodup := by
        rw [hkeys]
        exact h
      obtain ⟨msg, hmsg⟩ := ih (acc ++ hd.http_methods.map (fun meth => (meth, hd.hid)))
        (by rw [hkeys]; exact hpre) hnot1
      exact ⟨msg, by simp [createHandlerMapAux, hadd, hmsg]⟩
    · obtain ⟨msg, hmsg⟩ := addHandlerMethods_err path hd.hid hd.http_methods acc hacc hpre
      exact ⟨msg, by simp [createHandlerMapAux, hmsg]⟩

/-- C6: building the route's method table fails with
`ImproperlyConfiguredException` exactly when some HTTP method is declared
twice; no table is produced at all in that case (no partial mutation is
observable); on success the table's keys are the declared methods, without
duplicates, so N declared methods give exactly N entries with at most one
handler per method. -/
theorem create_handler_map_spec (path : String) (hs : List HandlerDecl) :
    (createHandlerMap path hs = .ok (fullTable hs) ↔ (allMethods hs).Nodup) ∧
    ((allMethods hs).Nodup →
      (fullTable hs).map Prod.fst = allMethods hs ∧
      ((fullTable hs).map Prod.fst).Nodup ∧
      (fullTable hs).length = (allMethods hs).length) ∧
    (¬ (allMethods hs).Nodup →
      ∃ msg, createHandlerMap path hs = .error (.improperlyConfiguredException msg)) := by
  refine ⟨⟨?_, ?_⟩, ?_, ?_⟩
  · intro hok
    by_contra hnd
    obtain ⟨msg, hmsg⟩ := createHandlerMapAux_err path hs [] (by simp) (by simpa using hnd)
    rw [createHandlerMap, hmsg] at hok
    exact Except.noConfusion hok
  · intro hnd
    have := createHandlerMapAux_ok path hs [] (by simpa using hnd)
    simpa [createHandlerMap] using this
  · intro hnd
    refine ⟨fullTable_keys hs, ?_, ?_⟩
    · rw [fullTable_keys]; exact hnd
    · have := congrArg List.length (fullTable_keys hs)
      simpa using this
  · intro hnd
    exact createHandlerMapAux_err path hs [] (by simp) (by simpa using hnd)

/-- Witness for C6: two handlers with three distinct methods build the
three-entry table; two handlers sharing `GET` fail with the
duplicate-registration error. -/
theorem create_handler_map_spec_witness :
    createHandlerMap "/p" [{ hid := 0, http_methods := ["GET", "POST"] },
        { hid := 1, http_methods := ["DELETE"] }] =
      .ok [("GET", 0), ("POST", 0), ("DELETE", 1)] ∧
    ∃ msg, createHandlerMap "/p" [{ hid := 0, http_methods := ["GET"] },
        { hid := 1, http_methods := ["GET"] }] =
      .error (.improperlyConfiguredException msg) := by
  constructor
  · have h := (create_handler_map_spec "/p" [{ hid := 0, http_methods := ["GET", "POST"] },
      { hid := 1, http_methods := ["DELETE"] }]).1.mpr (by decide)
    rw [h]
    decide
  · exact (create_handler_map_spec "/p" [{ hid := 0, http_methods := ["GET"] },
      { hid := 1, http_methods := ["GET"] }]).2.2 (by decide)

/-- Setting a key makes it readable back. -/
theorem headerGet_headerSet (hs : List (String × String)) (k v : String) :
    headerGet (headerSet hs k v) k = some v := by
  induction hs with
  | nil => simp [headerSet, headerGet]
  | cons p ps ih =>
    by_cases h : p.1 == k
    · simp [headerSet, headerGet, h]
    · simp [headerSet, headerGet, h, ih]

/-- The failure component of the origin step is exactly the `"Origin"` check. -/
theorem applyOriginHeader_fst (cfg : CORSConfig) (origin : String)
    (hs : List (String × String)) :
    (applyOriginHeader cfg origin hs).1 =
      if !cfg.is_origin_allowed origin then ["Origin"] else [] := by
  by_cases h : cfg.is_origin_allowed origin
  · simp [applyOriginHeader, h]
    split <;> rfl
  · simp [applyOriginHeader, h]

/-- C3: whenever at least one preflight failure reason is recorded, the
response has status 400 and a plain-text body `"Disallowed CORS "` followed
by the comma-joined reasons; the reason list is `preflightFailures`, which
lists every applicable reason in the fixed order `method`, `Origin`,
`headers`. -/
theorem preflight_denied_response (cfg : CORSConfig) (origin : String)
    (req : RequestHeaders) (h : preflightFailures cfg origin req ≠ []) :
    preflightResponse cfg origin req =
      { content := some ("Disallowed CORS " ++
          String.intercalate ", " (preflightFailures cfg origin req))
        status_code := 400
        headers := [] } := by
  have hfail :
      (if methodFailure cfg req then ["method"] else []) ++
        (applyOriginHeader cfg origin cfg.preflight_headers).1 ++
        (if headersFailure cfg req then ["headers"] else []) =
      preflightFailures cfg origin req := by
    rw [applyOriginHeader_fst]; rfl
  unfold preflightResponse
  simp only [methodFailure, headersFailure] at hfail
  simp only [hfail]
  have : (preflightFailures cfg origin req).isEmpty = false := by
    cases hf : preflightFailures cfg origin req with
    | nil => exact absurd hf h
    | cons a l => rfl
  simp [this]

/-- Witness for C3: the sample config with a disallowed method, origin and
request header yields all three reasons, joined in order. -/
theorem preflight_denied_response_witness :
    preflightFailures sampleConfig "https://evil.example"
      { origin := some "https://evil.example"
        accessControlRequestMethod := some "DELETE"
        accessControlRequestHeaders := some "X-Custom, Accept" } ≠ [] ∧
    preflightResponse sampleConfig "https://evil.example"
      { origin := some "https://evil.example"
        accessControlRequestMethod := some "DELETE"
        accessControlRequestHeaders := some "X-Custom, Accept" } =
      { content := some "Disallowed CORS method, Origin, headers"
        status_code := 400
        headers := [] } := by
  refine ⟨by decide, ?_⟩
  have h := preflight_denied_response sampleConfig "https://evil.example"
    { origin := some "https://evil.example"
      accessControlRequestMethod := some "DELETE"
      accessControlRequestHeaders := some "X-Custom, Accept" } (by decide)
  rw [h]
  decide

/-- C7: an OPTIONS request with no CORS policy configured or no `Origin`
header gets a `204` whose only header is `Allow`, listing the
lexicographically sorted set `{OPTIONS} ∪ declared methods`, with no CORS
headers. -/
theorem options_no_cors_or_no_origin (cors : Option CORSConfig)
    (ms : List String) (req : RequestHeaders)
    (h : cors = none ∨ req.origin = none) :
    optionsHandler cors ms req =
      { content := none
        status_code := 204
        headers := [("Allow", String.intercalate ", " (sortedSet ("OPTIONS" :: ms)))] } ∧
    ∀ p ∈ (optionsHandler cors ms req).headers, p.1 = "Allow" := by
  have hres : optionsHandler cors ms req = allowResponse ms := by
    rcases h with h | h
    · subst h; rfl
    · cases cors with
      | none => rfl
      | some cfg => simp [optionsHandler, h]
  rw [hres]
  exact ⟨rfl, by simp [allowResponse]⟩

/-- Witness for C7: no CORS policy, origin present. -/
theorem options_no_cors_or_no_origin_witness :
    optionsHandler none ["GET", "DELETE"]
      { origin := some "https://ok.example"
        accessControlRequestMethod := none
        accessControlRequestHeaders := none } =
      { content := none
        status_code := 204
        headers := [("Allow", "DELETE, GET, OPTIONS")] } := by
  have h := options_no_cors_or_no_origin none ["GET", "DELETE"]
    { origin := some "https://ok.example"
      accessControlRequestMethod := none
      accessControlRequestHeaders := none } (Or.inl rfl)
  rw [h.1]
  decide

/-- C8: for an allowed origin, a preflight-header set already granting
`Access-Control-Allow-Origin: *` is left untouched; otherwise
`Access-Control-Allow-Origin` is set to the literal request origin. -/
theorem preflight_allowed_origin_echo (cfg : CORSConfig) (origin : String)
    (hAllow : cfg.is_origin_allowed origin = true) :
    (headerGet cfg.preflight_headers "Access-Control-Allow-Origin" = some "*" →
      (applyOriginHeader cfg origin cfg.preflight_headers).2 = cfg.preflight_headers) ∧
    (headerGet cfg.preflight_headers "Access-Control-Allow-Origin" ≠ some "*" →
      headerGet (applyOriginHeader cfg origin cfg.preflight_headers).2
        "Access-Control-Allow-Origin" = some origin) := by
  constructor
  · intro hstar
    simp [applyOriginHeader, hAllow, hstar]
  · intro hne
    have hbeq : (headerGet cfg.preflight_headers "Access-Control-Allow-Origin"
        == some "*") = false := by
      simpa using hne
    simp [applyOriginHeader, hAllow, hbeq, headerGet_headerSet]

/-- Witness for C8: with the wildcard config the header survives unchanged;
with the sample config the request origin is echoed verbatim. -/
theorem preflight_allowed_origin_echo_witness :
    (applyOriginHeader wildcardConfig "https://a.example"
        wildcardConfig.preflight_headers).2 =
      wildcardConfig.preflight_headers ∧
    headerGet (applyOriginHeader sampleConfig "https://ok.example"
        sampleConfig.preflight_headers).2 "Access-Control-Allow-Origin" =
      some "https://ok.example" := by
  constructor
  · exact (preflight_allowed_origin_echo wildcardConfig "https://a.example"
      (by decide)).1 (by decide)
  · exact (preflight_allowed_origin_echo sampleConfig "https://ok.example"
      (by decide)).2 (by decide)

/-! ### Event inventories of the pipeline stages -/

theorem cleanup_events_routine (g : DependencyCleanupGroup) :
    ∀ x ∈ g.cleanup.1, isRoutineEvent x = true := by
  intro x hx
  unfold DependencyCleanupGroup.cleanup at hx
  split at hx
  · simp at hx
  · simp at hx
    obtain ⟨i, _, rfl⟩ := hx
    rfl

theorem invokeHandler_trace (h : RouteHandler) (cg : Option DependencyCleanupGroup)
    (t0 : List Event) :
    (invokeHandler h cg t0).1 = t0 ++ [Event.handlerInvoked] ++
      (match cg with | some g => g.cleanup.1 | none => []) := by
  rcases cg with _ | g <;> rcases hfn : h.fn_result with e | v <;>
    simp [invokeHandler, hfn]

theorem invokeHandler_routine (h : RouteHandler) (cg : Option DependencyCleanupGroup)
    (t0 : List Event) (ht0 : ∀ x ∈ t0, isRoutineEvent x = true) :
    ∀ e ∈ (invokeHandler h cg t0).1, isRoutineEvent e = true := by
  intro e he
  rw [invokeHandler_trace] at he
  rcases List.mem_append.mp he with h1 | h2
  · rcases List.mem_append.mp h1 with ha | hb
    · exact ht0 _ ha
    · simp at hb
      subst hb
      rfl
  · rcases cg with _ | g
    · simp at h2
    · exact cleanup_events_routine g e h2

theorem getResponseData_routine (h : RouteHandler) :
    ∀ e ∈ (getResponseData h).1, isRoutineEvent e = true := by
  intro e he
  unfold getResponseData at he
  split at he
  · split at he
    · simp at he
      subst he
      rfl
    · split at he
      · simp at he
        subst he
        rfl
      · split at he
        · simp at he
          subst he
          rfl
        · refine invokeHandler_routine h _ _ ?_ e he
          intro x hx
          simp at hx
          subst hx
          rfl
  · refine invokeHandler_routine h none [] ?_ e he
    intro x hx
    simp at hx

theorem beforeRequestStep_trace (h : RouteHandler) :
    (beforeRequestStep h).1 = [] ∨ (beforeRequestStep h).1 = [Event.beforeRequestHook] := by
  unfold beforeRequestStep
  rcases h.before_request with _ | res <;> simp

theorem callHandlerFunction_routine (h : RouteHandler) :
    ∀ e ∈ (callHandlerFunction h).1, isRoutineEvent e = true := by
  have ht0 : ∀ x ∈ (beforeRequestStep h).1, isRoutineEvent x = true := by
    intro x hx
    rcases beforeRequestStep_trace h with htr | htr <;> rw [htr] at hx <;> simp at hx
    subst hx
    rfl
  have ht1 := getResponseData_routine h
  intro e he
  unfold callHandlerFunction at he
  rcases hbs : beforeRequestStep h with ⟨t0, r0⟩
  rw [hbs] at he ht0
  rcases r0 with e0 | v0
  · exact ht0 e he
  · simp only at he
    split at he
    · rcases hto : h.to_response v0 with e1 | msgs <;> rw [hto] at he <;>
        · rcases List.mem_append.mp he with ha | hb
          · exact ht0 e ha
          · simp at hb
            subst hb
            rfl
    · rcases hg : getResponseData h with ⟨t1, r1⟩
      rw [hg] at he ht1
      rcases r1 with e1 | ⟨data, cg⟩
      · rcases List.mem_append.mp he with ha | hb
        · exact ht0 e ha
        · exact ht1 e hb
      · simp only at he
        rcases hto : h.to_response data with e2 | msgs <;> rw [hto] at he
        · rcases List.mem_append.mp he with ha | hb
          · rcases List.mem_append.mp ha with hc | hd
            · exact ht0 e hc
            · exact ht1 e hd
          · simp at hb
            subst hb
            rfl
        · rcases List.mem_append.mp he with ha | hb
          · rcases List.mem_append.mp ha with hc | hd
            · rcases List.mem_append.mp hc with hx | hy
              · exact ht0 e hx
              · exact ht1 e hy
            · simp at hd
              subst hd
              rfl
          · rcases cg with _ | g
            · simp at hb
            · exact cleanup_events_routine g e hb

theorem filter_cleanup_map (l : List Nat) :
    (l.map Event.cleanupAction).filter isCleanupEvent = l.map Event.cleanupAction := by
  induction l with
  | nil => rfl
  | cons a t ih => simp [isCleanupEvent, ih]

/-- C1: whenever handler invocation is reached with a non-empty dependency
cleanup group — the before-request hook (if any) yielded a falsy value, the
kwargs model and signature model are present, the `data`/`body` kwargs and
validation succeeded, and dependency batches were acquired — the cleanup
events in the trace of `_call_handler_function` are exactly one release per
acquired action (in reverse acquisition order), whatever the handler
function and the response conversion return or raise. The release is in the
trace, i.e. it happened before control returned to the dispatcher; no action
runs twice even though the success path calls `cleanup()` a second time
after the scoped release. -/
theorem cleanup_group_released_exactly_once (h : RouteHandler)
    (hbr : h.before_request = none ∨
      ∃ v, h.before_request = some (Except.ok v) ∧ v.truthy = false)
    (hkw : h.parameter_model.has_kwargs = true)
    (hsig : h.has_signature_model = true)
    (k1 : List (String × KEntry))
    (hd : processDataKwarg h.parameter_model.kwargs = Except.ok k1)
    (k2 : List (String × KEntry)) (hb : processBodyKwarg k1 = Except.ok k2)
    (hdep : h.parameter_model.dependency_batches ≠ [])
    (hparse : h.parse_result = Except.ok ()) :
    (callHandlerFunction h).1.filter isCleanupEvent =
      h.parameter_model.dependency_batches.reverse.map Event.cleanupAction := by
  have hne : h.parameter_model.dependency_batches.isEmpty = false := by
    cases hx : h.parameter_model.dependency_batches with
    | nil => exact absurd hx hdep
    | cons a l => rfl
  have hacq : acquireCleanupGroup h.parameter_model =
      some { actions := h.parameter_model.dependency_batches, closed := false } := by
    simp [acquireCleanupGroup, hne]
  have hg : getResponseData h =
      invokeHandler h
        (some { actions := h.parameter_model.dependency_batches, closed := false })
        [Event.resolveParams] := by
    simp [getResponseData, hkw, hsig, hd, hb, hparse, hacq]
  obtain ⟨t0, v0, hbs, hv0, ht0f⟩ :
      ∃ t0 v0, beforeRequestStep h = (t0, Except.ok v0) ∧ v0.truthy = false ∧
        t0.filter isCleanupEvent = [] := by
    rcases hbr with hbr | ⟨v, hbr, hv⟩
    · exact ⟨[], Val.vnone, by simp [beforeRequestStep, hbr], rfl, rfl⟩
    · exact ⟨[Event.beforeRequestHook], v, by simp [beforeRequestStep, hbr], hv,
        by simp [isCleanupEvent]⟩
  unfold callHandlerFunction
  rw [hbs]
  simp only [hv0, Bool.false_eq_true, if_false]
  rw [hg]
  rcases hfn : h.fn_result with e1 | v1
  · simp [invokeHandler, hfn, List.filter_append, ht0f, isCleanupEvent,
      filter_cleanup_map, DependencyCleanupGroup.cleanup]
  · rcases hto : h.to_response v1 with e2 | msgs <;>
      simp [invokeHandler, hfn, hto, List.filter_append, ht0f, isCleanupEvent,
        filter_cleanup_map, DependencyCleanupGroup.cleanup]

/-- Witness for C1: two acquired dependencies are released in reverse order,
exactly once, when the handler raises. -/
theorem cleanup_group_released_exactly_once_witness :
    (callHandlerFunction { baseHandler with
        parameter_model := { has_kwargs := true, kwargs := [], dependency_batches := [1, 2] }
        has_signature_model := true
        fn_result := .error (.handlerException "boom") }).1.filter isCleanupEvent =
      [Event.cleanupAction 2, Event.cleanupAction 1] := by
  have h := cleanup_group_released_exactly_once { baseHandler with
      parameter_model := { has_kwargs := true, kwargs := [], dependency_batches := [1, 2] }
      has_signature_model := true
      fn_result := .error (.handlerException "boom") }
    (Or.inl rfl) rfl rfl [] rfl [] rfl (by decide) rfl
  rw [h]
  decide

theorem alistGet_alistDel {α : Type} (m : List (String × α)) (k : String) :
    alistGet (alistDel m k) k = none := by
  induction m with
  | nil => rfl
  | cons p ps ih =>
    by_cases hp : p.1 == k
    · simpa [alistDel, hp] using ih
    · simpa [alistDel, alistGet, hp] using ih

/-- C4: awaiting the `data` kwarg with a `SerializationException` makes the
dispatcher raise a client-facing `ClientException` built from the original
message; when the awaited value is the `Empty` sentinel, the `data` key is
removed from the kwargs mapping entirely. -/
theorem data_param_special_handling (h : RouteHandler) (m : String)
    (kwargs : List (String × KEntry)) :
    ((h.parameter_model.has_kwargs = true ∧ h.has_signature_model = true ∧
      alistGet h.parameter_model.kwargs "data" =
        some (KEntry.awaitData (Except.error (Exn.serializationException m)))) →
      (getResponseData h).2 = Except.error (Exn.clientException m)) ∧
    (alistGet kwargs "data" = some (KEntry.awaitData (Except.ok none)) →
      processDataKwarg kwargs = Except.ok (alistDel kwargs "data") ∧
      alistGet (alistDel kwargs "data") "data" = none) := by
  constructor
  · rintro ⟨hkw, hsig, hdata⟩
    have hpd : processDataKwarg h.parameter_model.kwargs =
        Except.error (Exn.clientException m) := by
      unfold processDataKwarg
      rw [hdata]
    simp [getResponseData, hkw, hsig, hpd]
  · intro hdata
    refine ⟨?_, alistGet_alistDel kwargs "data"⟩
    unfold processDataKwarg
    rw [hdata]

/-- Witness for C4: a malformed body raises `ClientException "bad body"`;
an `Empty` sentinel removes the `data` key. -/
theorem data_param_special_handling_witness :
    (getResponseData { baseHandler with
        parameter_model :=
          { has_kwargs := true,
            kwargs := [("data", KEntry.awaitData (Except.error
              (Exn.serializationException "bad body")))],
            dependency_batches := [] },
        has_signature_model := true }).2 =
      Except.error (Exn.clientException "bad body") ∧
    processDataKwarg [("data", KEntry.awaitData (Except.ok none)),
        ("x", KEntry.val (Val.vint 1))] =
      Except.ok [("x", KEntry.val (Val.vint 1))] ∧
    alistGet (alistDel [("data", KEntry.awaitData (Except.ok none)),
        ("x", KEntry.val (Val.vint 1))] "data") "data" = none := by
  refine ⟨?_, ?_, ?_⟩
  · exact (data_param_special_handling { baseHandler with
      parameter_model :=
        { has_kwargs := true,
          kwargs := [("data", KEntry.awaitData (Except.error
            (Exn.serializationException "bad body")))],
          dependency_batches := [] },
      has_signature_model := true } "bad body" []).1 ⟨rfl, rfl, rfl⟩
  · have h := (data_param_special_handling baseHandler "unused"
      [("data", KEntry.awaitData (Except.ok none)),
       ("x", KEntry.val (Val.vint 1))]).2 rfl
    rw [h.1]
    decide
  · decide

theorem routine_not_storeGet (e : Event) (he : isRoutineEvent e = true) :
    isStoreGetEvent e = false := by
  cases e <;> simp_all [isRoutineEvent, isStoreGetEvent]

theorem nonempty_isEmpty_false {α : Type} (l : List α) (h : l ≠ []) :
    l.isEmpty = false := by
  cases l with
  | nil => exact absurd rfl h
  | cons a t => rfl

/-- C5: the store is consulted only when the handler's caching policy is
enabled; a hit replays the decoded message sequence as the response, marking
the scope as served-from-cache and never invoking the handler; a miss falls
through to live invocation; a decode failure on a stored blob propagates as
a hard error instead of being treated as a miss. -/
theorem cache_lookup_semantics (env : CacheEnv) (h : RouteHandler) (req : Req)
    (bytes msgs : List Nat) (m : String) :
    (h.cache = false →
      getResponseForRequest env h req = callHandlerFunction h ∧
      ∀ e ∈ (getResponseForRequest env h req).1, isStoreGetEvent e = false) ∧
    (h.cache = true → env.store (cacheKeyOf env h req) = some bytes → bytes ≠ [] →
      env.decode bytes = .ok msgs →
      getResponseForRequest env h req =
        ([Event.storeGet (cacheKeyOf env h req), Event.decodeAttempt],
         .ok { fromCache := true, messages := msgs }) ∧
      sendResponse { fromCache := true, messages := msgs } =
        Event.markedCached :: msgs.map Event.sendMessage ∧
      Event.handlerInvoked ∉ (getResponseForRequest env h req).1) ∧
    (h.cache = true → env.store (cacheKeyOf env h req) = none →
      getResponseForRequest env h req =
        (Event.storeGet (cacheKeyOf env h req) :: (callHandlerFunction h).1,
         (callHandlerFunction h).2)) ∧
    (h.cache = true → env.store (cacheKeyOf env h req) = some bytes → bytes ≠ [] →
      env.decode bytes = .error m →
      getResponseForRequest env h req =
        ([Event.storeGet (cacheKeyOf env h req), Event.decodeAttempt],
         .error (.decodeError m)) ∧
      Event.handlerInvoked ∉ (getResponseForRequest env h req).1) := by
  refine ⟨?_, ?_, ?_, ?_⟩
  · intro hc
    have heq : getResponseForRequest env h req = callHandlerFunction h := by
      simp [getResponseForRequest, hc]
    refine ⟨heq, ?_⟩
    rw [heq]
    intro e he
    exact routine_not_storeGet e (callHandlerFunction_routine h e he)
  · intro hc hstore hne hdec
    have hgc : getCachedResponse env h req =
        ([Event.storeGet (cacheKeyOf env h req), Event.decodeAttempt],
         .ok (some { fromCache := true, messages := msgs })) := by
      simp [getCachedResponse, hstore, nonempty_isEmpty_false bytes hne, hdec]
    have heq : getResponseForRequest env h req =
        ([Event.storeGet (cacheKeyOf env h req), Event.decodeAttempt],
         .ok { fromCache := true, messages := msgs }) := by
      simp [getResponseForRequest, hc, hgc]
    refine ⟨heq, by simp [sendResponse], ?_⟩
    rw [heq]
    simp
  · intro hc hstore
    have hgc : getCachedResponse env h req =
        ([Event.storeGet (cacheKeyOf env h req)], .ok none) := by
      simp [getCachedResponse, hstore]
    simp [getResponseForRequest, hc, hgc]
  · intro hc hstore hne hdec
    have hgc : getCachedResponse env h req =
        ([Event.storeGet (cacheKeyOf env h req), Event.decodeAttempt],
         .error (.decodeError m)) := by
      simp [getCachedResponse, hstore, nonempty_isEmpty_false bytes hne, hdec]
    have heq : getResponseForRequest env h req =
        ([Event.storeGet (cacheKeyOf env h req), Event.decodeAttempt],
         .error (.decodeError m)) := by
      simp [getResponseForRequest, hc, hgc]
    refine ⟨heq, ?_⟩
    rw [heq]
    simp

/-- Witness for C5: a disabled cache dispatches live; a cached blob decoding
to messages `[3, 4]` is replayed as the response; a miss on an empty store
falls through; a corrupt blob raises the decode error. -/
theorem cache_lookup_semantics_witness :
    getResponseForRequest emptyStoreEnv baseHandler { path := "/p" } =
      callHandlerFunction baseHandler ∧
    getResponseForRequest
      { store := fun _ => some [1], decode := fun _ => .ok [3, 4],
        default_key_builder := fun p => p }
      { baseHandler with cache := true } { path := "/p" } =
      ([Event.storeGet "/p", Event.decodeAttempt],
       .ok { fromCache := true, messages := [3, 4] }) ∧
    getResponseForRequest emptyStoreEnv { baseHandler with cache := true }
      { path := "/p" } =
      (Event.storeGet "/p" :: (callHandlerFunction { baseHandler with cache := true }).1,
       (callHandlerFunction { baseHandler with cache := true }).2) ∧
    getResponseForRequest
      { store := fun _ => some [9], decode := fun _ => .error "corrupt",
        default_key_builder := fun p => p }
      { baseHandler with cache := true } { path := "/p" } =
      ([Event.storeGet "/p", Event.decodeAttempt], .error (.decodeError "corrupt")) := by
  refine ⟨?_, ?_, ?_, ?_⟩
  · exact ((cache_lookup_semantics emptyStoreEnv baseHandler { path := "/p" }
      [] [] "").1 rfl).1
  · exact ((cache_lookup_semantics
      { store := fun _ => some [1], decode := fun _ => .ok [3, 4],
        default_key_builder := fun p => p }
      { baseHandler with cache := true } { path := "/p" }
      [1] [3, 4] "").2.1 rfl rfl (by decide) rfl).1
  · exact (cache_lookup_semantics emptyStoreEnv { baseHandler with cache := true }
      { path := "/p" } [] [] "").2.2.1 rfl rfl
  · exact ((cache_lookup_semantics
      { store := fun _ => some [9], decode := fun _ => .error "corrupt",
        default_key_builder := fun p => p }
      { baseHandler with cache := true } { path := "/p" }
      [9] [] "corrupt").2.2.2 rfl rfl (by decide) rfl).1

/-- C10: a cache lookup that finds no entry, or an empty byte string, is a
miss: the gateway returns nothing without attempting deserialization, and
dispatch falls through to live invocation. -/
theorem cache_empty_blob_is_miss (env : CacheEnv) (h : RouteHandler) (req : Req)
    (hc : h.cache = true)
    (hstore : env.store (cacheKeyOf env h req) = none ∨
      env.store (cacheKeyOf env h req) = some []) :
    (getCachedResponse env h req).2 = .ok none ∧
    Event.decodeAttempt ∉ (getCachedResponse env h req).1 ∧
    getResponseForRequest env h req =
      (Event.storeGet (cacheKeyOf env h req) :: (callHandlerFunction h).1,
       (callHandlerFunction h).2) := by
  have hgc : getCachedResponse env h req =
      ([Event.storeGet (cacheKeyOf env h req)], .ok none) := by
    rcases hstore with hs | hs <;> simp [getCachedResponse, hs]
  refine ⟨by rw [hgc], by rw [hgc]; simp, ?_⟩
  simp [getResponseForRequest, hc, hgc]

/-- Witness for C10: a store holding the empty byte string for the derived
key yields a miss and live dispatch, with no decode attempted. -/
theorem cache_empty_blob_is_miss_witness :
    (getCachedResponse
      { store := fun _ => some [], decode := fun _ => .error "never",
        default_key_builder := fun p => p }
      { baseHandler with cache := true } { path := "/p" }).2 = .ok none ∧
    Event.decodeAttempt ∉ (getCachedResponse
      { store := fun _ => some [], decode := fun _ => .error "never",
        default_key_builder := fun p => p }
      { baseHandler with cache := true } { path := "/p" }).1 := by
  have h := cache_empty_blob_is_miss
    { store := fun _ => some [], decode := fun _ => .error "never",
      default_key_builder := fun p => p }
    { baseHandler with cache := true } { path := "/p" } rfl (Or.inr rfl)
  exact ⟨h.1, h.2.1⟩

/-- C9: a declared before-request hook returning a truthy value becomes the
response payload directly — no parameter resolution, no handler invocation —
while a falsy hook result lets dispatch continue into `_get_response_data`
(and, whenever the handler declares no kwargs model, the handler is in fact
invoked). -/
theorem before_request_hook_short_circuit (h : RouteHandler) (v : Val)
    (hhook : h.before_request = some (Except.ok v)) :
    (v.truthy = true →
      (callHandlerFunction h).1 = [Event.beforeRequestHook, Event.toResponseCall] ∧
      (callHandlerFunction h).2 = (match h.to_response v with
        | .error e => Except.error e
        | .ok msgs => Except.ok { fromCache := false, messages := msgs }) ∧
      Event.handlerInvoked ∉ (callHandlerFunction h).1 ∧
      Event.resolveParams ∉ (callHandlerFunction h).1) ∧
    (v.truthy = false →
      (∃ rest, (callHandlerFunction h).1 =
        Event.beforeRequestHook :: ((getResponseData h).1 ++ rest)) ∧
      ((h.parameter_model.has_kwargs && h.has_signature_model) = false →
        Event.handlerInvoked ∈ (callHandlerFunction h).1)) := by
  have hbs : beforeRequestStep h = ([Event.beforeRequestHook], Except.ok v) := by
    simp [beforeRequestStep, hhook]
  constructor
  · intro hv
    rcases hto : h.to_response v with e | msgs
    · have hcf : callHandlerFunction h =
          ([Event.beforeRequestHook, Event.toResponseCall], Except.error e) := by
        simp [callHandlerFunction, hbs, hv, hto]
      rw [hcf]
      exact ⟨rfl, rfl, by simp, by simp⟩
    · have hcf : callHandlerFunction h =
          ([Event.beforeRequestHook, Event.toResponseCall],
           Except.ok { fromCache := false, messages := msgs }) := by
        simp [callHandlerFunction, hbs, hv, hto]
      rw [hcf]
      exact ⟨rfl, rfl, by simp, by simp⟩
  · intro hv
    have hexp : ∃ rest, (callHandlerFunction h).1 =
        Event.beforeRequestHook :: ((getResponseData h).1 ++ rest) := by
      unfold callHandlerFunction
      rw [hbs]
      simp only [hv, Bool.false_eq_true, if_false]
      rcases hg : getResponseData h with ⟨t1, r1⟩
      rcases r1 with e1 | ⟨data, cg⟩
      · exact ⟨[], by simp⟩
      · rcases hto : h.to_response data with e2 | msgs
        · exact ⟨[Event.toResponseCall], by simp [hto]⟩
        · refine ⟨Event.toResponseCall ::
            (match cg with | some g => g.cleanup.1 | none => []), ?_⟩
          rcases cg with _ | g <;> simp [hto]
    refine ⟨hexp, ?_⟩
    intro hkwf
    have ht1 : (getResponseData h).1 = [Event.handlerInvoked] := by
      unfold getResponseData
      rw [hkwf]
      simp [invokeHandler_trace]
    obtain ⟨rest, htr⟩ := hexp
    rw [htr, ht1]
    simp

/-- Witness for C9: a truthy hook result short-circuits to its payload; a
falsy one proceeds to handler invocation. -/
theorem before_request_hook_short_circuit_witness :
    (callHandlerFunction { baseHandler with
        before_request := some (Except.ok (Val.vstr "early")) }).1 =
      [Event.beforeRequestHook, Event.toResponseCall] ∧
    Event.handlerInvoked ∉ (callHandlerFunction { baseHandler with
        before_request := some (Except.ok (Val.vstr "early")) }).1 ∧
    Event.handlerInvoked ∈ (callHandlerFunction { baseHandler with
        before_request := some (Except.ok Val.vnone) }).1 := by
  have h1 := (before_request_hook_short_circuit { baseHandler with
      before_request := some (Except.ok (Val.vstr "early")) }
      (Val.vstr "early") rfl).1 (by decide)
  have h2 := (before_request_hook_short_circuit { baseHandler with
      before_request := some (Except.ok Val.vnone) } Val.vnone rfl).2 rfl
  exact ⟨h1.1, h1.2.2.1, h2.2 rfl⟩

theorem filter_eq_nil_of_false {α : Type} (p : α → Bool) (l : List α)
    (h : ∀ x ∈ l, p x = false) : l.filter p = [] := by
  induction l with
  | nil => rfl
  | cons a t ih =>
    have ha := h a (by simp)
    rw [List.filter_cons, ha]
    simp only [Bool.false_eq_true, if_false]
    exact ih (fun x hx => h x (by simp [hx]))

theorem routine_not_fileClosed (e : Event) (he : isRoutineEvent e = true) :
    isFileClosedEvent e = false := by
  cases e <;> simp_all [isRoutineEvent, isFileClosedEvent]

theorem getCachedResponse_events (env : CacheEnv) (h : RouteHandler) (req : Req) :
    ∀ e ∈ (getCachedResponse env h req).1,
      e = Event.storeGet (cacheKeyOf env h req) ∨ e = Event.decodeAttempt := by
  intro e he
  unfold getCachedResponse at he
  split at he
  · simp at he
    exact Or.inl he
  · split at he
    · simp at he
      exact Or.inl he
    · split at he <;>
      · simp at he
        tauto

theorem getResponseForRequest_no_fileClosed (env : CacheEnv) (h : RouteHandler)
    (req : Req) :
    ∀ e ∈ (getResponseForRequest env h req).1, isFileClosedEvent e = false := by
  have hlive : ∀ e ∈ (callHandlerFunction h).1, isFileClosedEvent e = false :=
    fun e he => routine_not_fileClosed e (callHandlerFunction_routine h e he)
  have hcache : ∀ e ∈ (getCachedResponse env h req).1, isFileClosedEvent e = false := by
    intro e he
    rcases getCachedResponse_events env h req e he with hc | hc <;> subst hc <;> rfl
  intro e he
  unfold getResponseForRequest at he
  split at he
  · rcases hgc : getCachedResponse env h req with ⟨t, r⟩
    rw [hgc] at he hcache
    rcases r with e1 | o
    · exact hcache e he
    · rcases o with _ | resp
      · rcases List.mem_append.mp he with ha | hb
        · exact hcache e ha
        · exact hlive e hb
      · exact hcache e he
  · exact hlive e he

theorem sendResponse_no_fileClosed (r : Resp) :
    ∀ e ∈ sendResponse r, isFileClosedEvent e = false := by
  intro e he
  unfold sendResponse at he
  split at he <;>
  · simp at he
    rcases he with he | ⟨m, _, he⟩
    · subst he; rfl
    · rw [← he]; rfl

theorem afterResponseStep_trace (h : RouteHandler) :
    (afterResponseStep h).1 = [] ∨ (afterResponseStep h).1 = [Event.afterResponseHook] := by
  unfold afterResponseStep
  rcases h.after_response with _ | res <;> simp

theorem cleanupTemporaryFiles_filter (form : List FormFile) :
    (cleanupTemporaryFiles form).filter isFileClosedEvent =
      cleanupTemporaryFiles form := by
  unfold cleanupTemporaryFiles
  induction form.filter (fun f => f.isUploadFile && !f.wasClosed) with
  | nil => rfl
  | cons f t ih => simp [isFileClosedEvent, ih]

/-- Counterexample for C2 as stated: a handler that raises leaves an open
temporary upload file unclosed — `handle` has no `try`/`finally`, so the
file-cleanup step on its final line is never reached on the failure path and
the exception propagates with no `fileClosed` event in the trace. -/
theorem temp_files_not_closed_on_failure_cex :
    (handle emptyStoreEnv
        { baseHandler with fn_result := .error (.handlerException "boom") }
        { path := "/p" }
        [{ fname := "tmp1", isUploadFile := true, wasClosed := false }]).2 =
      Except.error (Exn.handlerException "boom") ∧
    (handle emptyStoreEnv
        { baseHandler with fn_result := .error (.handlerException "boom") }
        { path := "/p" }
        [{ fname := "tmp1", isUploadFile := true, wasClosed := false }]).1.filter
      isFileClosedEvent = [] := by
  decide

/-- C2 (amended): on the successful exit path — dispatch, response send and
the after-response hook all complete without raising — exactly the form
values that are upload files and still open are closed, once each; files the
handler already closed, and non-file form values, are not touched. On
failure paths `handle` closes nothing. -/
theorem temp_files_closed_on_success (env : CacheEnv) (h : RouteHandler)
    (req : Req) (form : List FormFile)
    (hok : (handle env h req form).2 = Except.ok ()) :
    (handle env h req form).1.filter isFileClosedEvent =
      (form.filter (fun f => f.isUploadFile && !f.wasClosed)).map
        (fun f => Event.fileClosed f.fname) := by
  unfold handle at hok ⊢
  rcases hga : authorizeStep h with eg | ug
  · rw [hga] at hok
    simp at hok
  · rw [hga] at hok
    rcases hgr : getResponseForRequest env h req with ⟨t1, r1⟩
    rw [hgr] at hok
    rcases r1 with e1 | resp
    · simp at hok
    · rcases has : afterResponseStep h with ⟨t3, r3⟩
      rw [has] at hok
      rcases r3 with e3 | u3
      · simp at hok
      · simp only []
        have h1 : t1.filter isFileClosedEvent = [] := by
          refine filter_eq_nil_of_false _ _ ?_
          intro x hx
          exact getResponseForRequest_no_fileClosed env h req x (by rw [hgr]; exact hx)
        have h2 : (sendResponse resp).filter isFileClosedEvent = [] :=
          filter_eq_nil_of_false _ _ (sendResponse_no_fileClosed resp)
        have h3 : t3.filter isFileClosedEvent = [] := by
          rcases afterResponseStep_trace h with htr | htr <;> rw [has] at htr <;>
            simp at htr <;> rw [htr] <;> rfl
        rcases hform : form.isEmpty with _ | _
        · have h4 := cleanupTemporaryFiles_filter form
          simp [List.filter_append, h1, h2, h3, hform, h4, cleanupTemporaryFiles]
          intro a x hx hup hcl ha
          subst ha
          rfl
        · have hnil : form = [] := by
            cases form with
            | nil => rfl
            | cons f t => simp [List.isEmpty] at hform
          subst hnil
          simp [List.filter_append, h1, h2, h3]

/-- Witness for C2 (amended): on a successful run, the open upload file is
closed once; the already-closed upload and the non-upload value are not. -/
theorem temp_files_closed_on_success_witness :
    (handle emptyStoreEnv baseHandler { path := "/p" }
        [{ fname := "a", isUploadFile := true, wasClosed := false },
         { fname := "b", isUploadFile := true, wasClosed := true },
         { fname := "c", isUploadFile := false, wasClosed := false }]).2 =
      Except.ok () ∧
    (handle emptyStoreEnv baseHandler { path := "/p" }
        [{ fname := "a", isUploadFile := true, wasClosed := false },
         { fname := "b", isUploadFile := true, wasClosed := true },
         { fname := "c", isUploadFile := false, wasClosed := false }]).1.filter
      isFileClosedEvent = [Event.fileClosed "a"] := by
  refine ⟨by decide, ?_⟩
  have h := temp_files_closed_on_success emptyStoreEnv baseHandler { path := "/p" }
    [{ fname := "a", isUploadFile := true, wasClosed := false },
     { fname := "b", isUploadFile := true, wasClosed := true },
     { fname := "c", isUploadFile := false, wasClosed := false }] (by decide)
  rw [h]
  decide

end Litestar
